import Mathlib

/-!
Shallow embedding of the AgenticTeam core (agent lifecycle, message bus,
orchestrator registry, LLM pool) translated from the Python sources:

* `src/app/core/models.py`        — data model
* `src/app/core/message_bus.py`   — `A2AMessageBus`
* `src/app/agents/base.py`        — `Agent` run loop and lifecycle
* `src/app/agents/echo.py`        — `EchoAgent` hooks
* `src/app/orchestration/orchestrator.py` — `Orchestrator`
* `src/app/services/llm_pool.py`  — `LLMPool` semaphore discipline

Python dicts are modelled as association lists with first-match lookup
(order-preserving, as CPython dicts are); `asyncio.Queue` mailboxes are
FIFO lists (front = oldest); exceptions are `Except` values carrying the
error string and, for agent hooks, the descriptor as mutated up to the
raise point.
-/

/-- Lifecycle states, from `app/core/models.py` (`class AgentState`). -/
inductive AgentState
  | SPAWNING
  | RUNNING
  | STOPPING
  | STOPPED
  | FAILED
deriving DecidableEq, Repr

/-- `AgentConfig` from `app/core/models.py`: name, role, mcp_server,
metadata mapping.  Metadata values are modelled as strings (the core only
ever compares the `"session_id"` tag for equality). -/
structure AgentConfig where
  name : String
  role : String
  mcp_server : String
  metadata : List (String × String)
deriving DecidableEq, Repr

/-- `AgentDescriptor` from `app/core/models.py`. -/
structure AgentDescriptor where
  agent_id : String
  config : AgentConfig
  state : AgentState
  task_count : Nat
  last_error : Option String
deriving DecidableEq, Repr

/-- `A2AMessage` from `app/core/models.py`; payload values modelled as
strings. -/
structure A2AMessage where
  sender_id : String
  recipient_id : Option String
  payload : List (String × String)
  correlation_id : Option String
deriving DecidableEq, Repr

/-- Python `dict.get`: first-match lookup in an association list. -/
def dictGet {α : Type} (key : String) : List (String × α) → Option α
  | [] => none
  | (k, v) :: rest => if k = key then some v else dictGet key rest

/-!  ## MessageBus (`app/core/message_bus.py`)  -/

/-- `A2AMessageBus`: per-agent mailboxes, keyed by agent id.  The
association list mirrors `self._mailboxes` (a `defaultdict(asyncio.Queue)`);
each queue is a FIFO list whose head is the oldest undelivered message. -/
structure A2AMessageBus where
  mailboxes : List (String × List A2AMessage)
deriving DecidableEq, Repr

namespace A2AMessageBus

/-- Mailbox lookup (`self._mailboxes.get(agent_id)`). -/
def getQueue (bus : A2AMessageBus) (agent_id : String) : Option (List A2AMessage) :=
  dictGet agent_id bus.mailboxes

/-- `queue.put(message)` on the recipient's mailbox: append to the first
entry with the given key, leave everything else untouched. -/
def putMail : List (String × List A2AMessage) → String → A2AMessage →
    List (String × List A2AMessage)
  | [], _, _ => []
  | (k, q) :: rest, rid, m =>
      if k = rid then (k, q ++ [m]) :: rest
      else (k, q) :: putMail rest rid m

/-- `register(agent_id)`: accessing the defaultdict creates the queue; a
fresh empty mailbox is appended iff the id is absent (idempotent). -/
def register (bus : A2AMessageBus) (agent_id : String) : A2AMessageBus :=
  match bus.getQueue agent_id with
  | some _ => bus
  | none => ⟨bus.mailboxes ++ [(agent_id, [])]⟩

/-- `unregister(agent_id)`: drop the mailbox (queued messages discarded). -/
def unregister (bus : A2AMessageBus) (agent_id : String) : A2AMessageBus :=
  ⟨bus.mailboxes.filter (fun p => p.1 ≠ agent_id)⟩

/-- Broadcast branch of `send`: enqueue onto every mailbox registered at
this instant except the sender's. -/
def broadcast (bus : A2AMessageBus) (msg : A2AMessage) : A2AMessageBus :=
  ⟨bus.mailboxes.map (fun p =>
      if p.1 = msg.sender_id then p else (p.1, p.2 ++ [msg]))⟩

/-- `send(message)` from `app/core/message_bus.py`.  The Python guard is
`if message.recipient_id:` — a *truthiness* test, so both `None` and the
empty string select the broadcast branch.  With a truthy recipient the
code does `queue = self._mailboxes.get(recipient_id)` and enqueues only
if a mailbox exists (an `asyncio.Queue` object is always truthy), else
silently returns. -/
def send (bus : A2AMessageBus) (msg : A2AMessage) : A2AMessageBus :=
  match msg.recipient_id with
  | some rid =>
      if rid = "" then bus.broadcast msg
      else
        match bus.getQueue rid with
        | some _ => ⟨putMail bus.mailboxes rid msg⟩
        | none => bus
  | none => bus.broadcast msg

/-- Sequential sends, in program order. -/
def sendAll (bus : A2AMessageBus) : List A2AMessage → A2AMessageBus
  | [] => bus
  | m :: rest => sendAll (bus.send m) rest

end A2AMessageBus

/-!  ## Agent runtime (`app/agents/base.py`)  -/

/-- Outcome of running one hook / handler call: `.ok d` is a normal
return with the descriptor as the hook left it; `.error (e, d)` models a
raised exception with message `e`, with `d` the descriptor as mutated up
to the raise point (Python hooks mutate `self.descriptor` in place). -/
abbrev HookOutcome := Except (String × AgentDescriptor) AgentDescriptor

/-- The overridable behaviour of a concrete `Agent` subclass: the
`on_start` / `on_idle` hooks, the abstract `handle_message`, and the
`on_stop` hook (run in the `finally` of `_run_safe`; modelled as
non-faulting, as all hooks in the repository are). -/
structure AgentBehavior where
  on_start : AgentDescriptor → HookOutcome
  handle_message : A2AMessage → AgentDescriptor → HookOutcome
  on_idle : AgentDescriptor → HookOutcome
  on_stop : AgentDescriptor → AgentDescriptor

/-- One iteration's input to the receive loop: `asyncio.wait_for` either
yields a message from the mailbox or raises `TimeoutError`. -/
inductive LoopEvent
  | msg (m : A2AMessage)
  | timeout
deriving DecidableEq, Repr

/-- `Agent._handle_message` (base.py lines 75-77): run the handler, then
increment `task_count` — the increment happens only after a successful
handler return; a raise propagates before any increment. -/
def handleMessageStep (beh : AgentBehavior) (m : A2AMessage)
    (d : AgentDescriptor) : HookOutcome :=
  match beh.handle_message m d with
  | .ok dh => .ok { dh with task_count := dh.task_count + 1 }
  | .error ed => .error ed

/-- The `while not self._stop_event.is_set()` body of `_run_safe`,
iterated over a finite event schedule (the schedule ends when the stop
signal is observed).  Returns the descriptor on loop exit, the list of
successfully handled messages in order, `some e` iff the loop body
raised `e` (ending the loop early), and the trace of descriptor
snapshots after each iteration. -/
def runLoop (beh : AgentBehavior) :
    AgentDescriptor → List LoopEvent →
    AgentDescriptor × List A2AMessage × Option String × List AgentDescriptor
  | d, [] => (d, [], none, [])
  | d, .msg m :: rest =>
      match handleMessageStep beh m d with
      | .ok d' =>
          let r := runLoop beh d' rest
          (r.1, m :: r.2.1, r.2.2.1, d' :: r.2.2.2)
      | .error (e, dh) => (dh, [], some e, [dh])
  | d, .timeout :: rest =>
      match beh.on_idle d with
      | .ok d' =>
          let r := runLoop beh d' rest
          (r.1, r.2.1, r.2.2.1, d' :: r.2.2.2)
      | .error (e, dh) => (dh, [], some e, [dh])

/-- Result of one complete execution of `Agent._run_safe`. -/
structure RunResult where
  /-- Final descriptor when the loop task completes (after `on_stop`). -/
  desc : AgentDescriptor
  /-- Descriptor snapshots from the moment `self._started_event.set()`
  first runs (base.py line 57) until task completion, in order; the
  `start()` caller resumes at one of these points. -/
  trace : List AgentDescriptor
  /-- Messages handled without fault, in delivery order. -/
  handledOk : List A2AMessage
  /-- Whether the `finally: await self.on_stop()` ran. -/
  onStopRan : Bool
deriving Repr

/-- `Agent._run_safe` (base.py lines 52-73): acquire the mailbox
(`bus.deliver` — registration, which cannot raise), set RUNNING, release
the readiness barrier, run `on_start`, then the receive loop; any raise
is caught at the loop boundary, setting FAILED and recording the cause;
normal exit sets STOPPED; `on_stop` always runs in the `finally`. -/
def runSafe (beh : AgentBehavior) (d0 : AgentDescriptor)
    (events : List LoopEvent) : RunResult :=
  let dR := { d0 with state := AgentState.RUNNING }
  match beh.on_start dR with
  | .error (e, dh) =>
      let dF := { dh with state := AgentState.FAILED, last_error := some e }
      let dZ := beh.on_stop dF
      ⟨dZ, [dR, dh, dF, dZ], [], true⟩
  | .ok d1 =>
      let r := runLoop beh d1 events
      match r.2.2.1 with
      | some e =>
          let dF := { r.1 with state := AgentState.FAILED, last_error := some e }
          let dZ := beh.on_stop dF
          ⟨dZ, dR :: d1 :: r.2.2.2 ++ [dF, dZ], r.2.1, true⟩
      | none =>
          let dS := { r.1 with state := AgentState.STOPPED }
          let dZ := beh.on_stop dS
          ⟨dZ, dR :: d1 :: r.2.2.2 ++ [dS, dZ], r.2.1, true⟩

/-- Runtime wrapper state: the descriptor plus `self._runner` — `none`
when no loop task has been launched; `some drain` models a live task,
where `drain d` is the descriptor once the signalled loop (remaining
iterations, teardown hook included) has fully exited from descriptor
`d`. -/
structure AgentRT where
  desc : AgentDescriptor
  runner : Option (AgentDescriptor → AgentDescriptor)

/-- `Agent.stop` (base.py lines 43-50): if no runner exists, return
immediately; otherwise write STOPPING, set the stop event, await the
runner, and clear it.  The boolean records whether the loop (and hence
its `on_stop` hook) was joined. -/
def Agent.stop (rt : AgentRT) : AgentRT × Bool :=
  match rt.runner with
  | none => (rt, false)
  | some drain =>
      let d1 := { rt.desc with state := AgentState.STOPPING }
      (⟨drain d1, none⟩, true)

/-!  ## EchoAgent hooks (`app/agents/echo.py`)  -/

/-- `EchoAgent.on_start` (echo.py lines 28-29): sets state to RUNNING. -/
def echoOnStart (d : AgentDescriptor) : HookOutcome :=
  .ok { d with state := AgentState.RUNNING }

/-- `EchoAgent.on_stop` (echo.py lines 31-32): unconditionally sets the
descriptor state to STOPPED. -/
def echoOnStop (d : AgentDescriptor) : AgentDescriptor :=
  { d with state := AgentState.STOPPED }

/-!  ## MCP registry (`app/services/mcp.py`)  -/

/-- `MCPServer` from `app/services/mcp.py`. -/
structure MCPServer where
  name : String
  endpoint : String
deriving DecidableEq, Repr

/-- `MCPRegistry`: capability → server, a plain dict. -/
structure MCPRegistry where
  servers : List (String × MCPServer)
deriving DecidableEq, Repr

/-- `MCPRegistry.get`: raises `KeyError` when the capability is absent. -/
def MCPRegistry.get (reg : MCPRegistry) (capability : String) :
    Except String MCPServer :=
  match dictGet capability reg.servers with
  | some srv => .ok srv
  | none => .error ("No MCP server registered for capability: " ++ capability)

/-!  ## Orchestrator (`app/orchestration/orchestrator.py`)  -/

/-- Spawn-time validation failures raised by `spawn_agent` before any
mutation (`KeyError` in Python, split by origin). -/
inductive SpawnError
  | roleNotFound (role : String)
  | targetNotFound (capability : String)
deriving DecidableEq, Repr

instance {ε α : Type} [DecidableEq ε] [DecidableEq α] : DecidableEq (Except ε α) := fun a b =>
  match a, b with
  | .ok x, .ok y =>
      if h : x = y then .isTrue (by rw [h])
      else .isFalse (by intro hc; cases hc; exact h rfl)
  | .ok _, .error _ => .isFalse (by intro hc; cases hc)
  | .error _, .ok _ => .isFalse (by intro hc; cases hc)
  | .error x, .error y =>
      if h : x = y then .isTrue (by rw [h])
      else .isFalse (by intro hc; cases hc; exact h rfl)

/-- A registry entry: the runtime's descriptor plus the outcome that
`await agent.stop()` would produce for it (`.error e` models a stop that
faults with exception `e`). -/
structure RegisteredAgent where
  desc : AgentDescriptor
  stopResult : Except String Unit
deriving DecidableEq, Repr

/-- `Orchestrator` state: the role catalog (role names with registered
constructors), the MCP registry, and `self._agents` keyed by agent id. -/
structure Orchestrator where
  agent_catalog : List String
  mcp_registry : MCPRegistry
  agents : List (String × RegisteredAgent)
deriving DecidableEq, Repr

namespace Orchestrator

/-- `_resolve_agent_class` (orchestrator.py lines 118-121): raises
`KeyError` for a role outside the catalog. -/
def resolve_agent_class (orch : Orchestrator) (role : String) :
    Except SpawnError Unit :=
  if role ∈ orch.agent_catalog then .ok ()
  else .error (.roleNotFound role)

/-- Insert into the registry dict (`self._agents[descriptor.agent_id] = agent`):
replace the first entry under the same key, else append. -/
def dictInsert : List (String × RegisteredAgent) → String → RegisteredAgent →
    List (String × RegisteredAgent)
  | [], k, v => [(k, v)]
  | (k0, v0) :: rest, k, v =>
      if k0 = k then (k0, v) :: rest
      else (k0, v0) :: dictInsert rest k v

/-- `spawn_agent` (orchestrator.py lines 35-61), with the fresh
`uuid.uuid4()` supplied as `freshId` and the spawned agent's eventual
stop outcome as `stopR`.  The function returns the orchestrator state as
it is when the call returns *or raises*: both validation checks run
before the descriptor and the runtime object are constructed and before
the registry is touched, so on either `KeyError` the state is exactly
the input state.  On success the descriptor is built in SPAWNING,
the agent object is constructed, the entry is inserted under the lock,
and `await agent.start()` blocks on the readiness barrier, which is
released once the loop has written RUNNING (base.py line 56-57). -/
def spawn_agent (orch : Orchestrator) (config : AgentConfig)
    (freshId : String) (stopR : Except String Unit) :
    Orchestrator × Except SpawnError AgentDescriptor :=
  match orch.resolve_agent_class config.role with
  | .error e => (orch, .error e)
  | .ok _ =>
    match orch.mcp_registry.get config.mcp_server with
    | .error _ => (orch, .error (.targetNotFound config.mcp_server))
    | .ok _ =>
      let descriptor : AgentDescriptor :=
        ⟨freshId, config, AgentState.SPAWNING, 0, none⟩
      let started := { descriptor with state := AgentState.RUNNING }
      ({ orch with agents := dictInsert orch.agents freshId ⟨started, stopR⟩ },
       .ok started)

/-- `list_agents` (orchestrator.py lines 78-79). -/
def list_agents (orch : Orchestrator) : List AgentDescriptor :=
  orch.agents.map (fun p => p.2.desc)

/-- `get_agent` (orchestrator.py lines 81-83). -/
def get_agent (orch : Orchestrator) (agent_id : String) :
    Option AgentDescriptor :=
  (dictGet agent_id orch.agents).map (fun a => a.desc)

/-- The session predicate used by both `list_agents_by_session` and
`terminate_session`:
`agent.descriptor.config.metadata.get("session_id") == session_id`
(an absent key yields `None`, which never equals the string). -/
def inSession (a : RegisteredAgent) (session_id : String) : Bool :=
  dictGet "session_id" a.desc.config.metadata = some session_id

/-- `list_agents_by_session` (orchestrator.py lines 85-91). -/
def list_agents_by_session (orch : Orchestrator) (session_id : String) :
    List AgentDescriptor :=
  (orch.agents.filter (fun p => inSession p.2 session_id)).map (fun p => p.2.desc)

/-- `terminate_session` (orchestrator.py lines 93-107): under the lock,
select and pop every entry whose metadata carries the session id; then,
outside the lock, `asyncio.gather(..., return_exceptions=True)` awaits
every removed agent's `stop()`, collecting each outcome instead of
propagating it.  Returns the new state and the gathered stop results. -/
def terminate_session (orch : Orchestrator) (session_id : String) :
    Orchestrator × List (Except String Unit) :=
  let session_agents := orch.agents.filter (fun p => inSession p.2 session_id)
  let remaining := orch.agents.filter (fun p => ¬ inSession p.2 session_id)
  ({ orch with agents := remaining },
   session_agents.map (fun p => p.2.stopResult))

/-- `terminate_all` (orchestrator.py lines 71-76): under the lock, copy
out every runtime and clear the registry; then gather all `stop()` calls
with `return_exceptions=True`, so every stop is awaited and any raised
exception is returned as a value rather than aborting the others. -/
def terminate_all (orch : Orchestrator) :
    Orchestrator × List (Except String Unit) :=
  ({ orch with agents := [] },
   orch.agents.map (fun p => p.2.stopResult))

end Orchestrator

/-!  ## LLM pool (`app/services/llm_pool.py`)

`LLMPool.acquire` guards each registered model behind an
`asyncio.Semaphore(config.max_concurrent)`: `await semaphore.acquire()`
blocks while the counter is zero, and `semaphore.release()` sits in a
`finally`, so the slot is returned on success, fault and cancellation
alike.  The discipline for one registered resource is modelled as a
transition system over caller tasks.  -/

/-- Phase of one caller of `LLMPool.acquire`: still blocked in
`semaphore.acquire()`, currently holding the yielded client, or exited
(through the `finally`, on any path). -/
inductive CallerPhase
  | waiting
  | holding
  | done
deriving DecidableEq, Repr

/-- State of one registered resource: the semaphore counter and the
phase of each caller task. -/
structure PoolState where
  avail : Nat
  callers : List CallerPhase
deriving DecidableEq, Repr

/-- `register_azure_openai` (llm_pool.py lines 19-23) creates
`asyncio.Semaphore(config.max_concurrent)`: all slots free, and the
`k` caller tasks have not yet acquired. -/
def poolInit (max_concurrent : Nat) (k : Nat) : PoolState :=
  ⟨max_concurrent, List.replicate k CallerPhase.waiting⟩

/-- Number of callers simultaneously holding an acquired client. -/
def holders (s : PoolState) : Nat :=
  s.callers.countP (fun c => c = CallerPhase.holding)

/-- Interleaving semantics of `acquire` (llm_pool.py lines 25-41):
`semaphore.acquire()` completes only while the counter is positive and
decrements it; `semaphore.release()` in the `finally` increments it on
every exit path — success, fault during lazy construction or in the
caller's body, and cancellation. -/
inductive PoolStep : PoolState → PoolState → Prop
  | acquire (s : PoolState) (i : Nat) (hi : s.callers.get? i = some CallerPhase.waiting)
      (hav : 0 < s.avail) :
      PoolStep s ⟨s.avail - 1, s.callers.set i CallerPhase.holding⟩
  | release (s : PoolState) (i : Nat) (hi : s.callers.get? i = some CallerPhase.holding) :
      PoolStep s ⟨s.avail + 1, s.callers.set i CallerPhase.done⟩

/-- Reachability under interleaved acquire/release steps. -/
def PoolReachable (s t : PoolState) : Prop :=
  Relation.ReflTransGen PoolStep s t

/-!  ## Bus lemmas  -/

theorem dictGet_putMail_self (bs : List (String × List A2AMessage))
    (rid : String) (m : A2AMessage) :
    dictGet rid (A2AMessageBus.putMail bs rid m) =
      (dictGet rid bs).map (fun q => q ++ [m]) := by
  induction bs with
  | nil => simp [A2AMessageBus.putMail, dictGet]
  | cons p rest ih =>
      obtain ⟨k, q⟩ := p
      by_cases hk : k = rid
      · subst hk
        simp [A2AMessageBus.putMail, dictGet]
      · simp [A2AMessageBus.putMail, dictGet, hk, ih]

theorem dictGet_putMail_other (bs : List (String × List A2AMessage))
    (rid r : String) (m : A2AMessage) (hne : r ≠ rid) :
    dictGet r (A2AMessageBus.putMail bs rid m) = dictGet r bs := by
  induction bs with
  | nil => simp [A2AMessageBus.putMail]
  | cons p rest ih =>
      obtain ⟨k, q⟩ := p
      by_cases hk : k = rid
      · subst hk
        have hkr : k ≠ r := fun h => hne h.symm
        simp [A2AMessageBus.putMail, dictGet, hkr]
      · by_cases hkr : k = r
        · subst hkr
          simp [A2AMessageBus.putMail, dictGet, hk]
        · simp [A2AMessageBus.putMail, dictGet, hk, hkr, ih]

theorem getQueue_send_pointToPoint (bus : A2AMessageBus) (m : A2AMessage)
    (r rid : String) (q0 : List A2AMessage)
    (hrec : m.recipient_id = some rid) (hrid : rid ≠ "")
    (hreg : bus.getQueue r = some q0) :
    (bus.send m).getQueue r =
      some (if rid = r then q0 ++ [m] else q0) := by
  unfold A2AMessageBus.send
  rw [hrec]
  simp only [hrid, if_false]
  by_cases hr : rid = r
  · subst hr
    have h1 := dictGet_putMail_self bus.mailboxes rid m
    rw [show dictGet rid bus.mailboxes = some q0 from hreg] at h1
    rw [show bus.getQueue rid = some q0 from hreg]
    simp [A2AMessageBus.getQueue, h1]
  · cases hq : bus.getQueue rid with
    | some q =>
        have h2 := dictGet_putMail_other bus.mailboxes rid r m (fun h => hr h.symm)
        rw [show dictGet r bus.mailboxes = some q0 from hreg] at h2
        simp only [hq]
        simp [A2AMessageBus.getQueue, hr, h2]
    | none =>
        simp [hq, A2AMessageBus.getQueue, hr,
          show dictGet r bus.mailboxes = some q0 from hreg]

/-- C4: N messages sent to one recipient's mailbox are delivered in
exactly the order they were sent — strict FIFO per mailbox.  For any
sequence of point-to-point sends (each with a truthy recipient id),
interleaved arbitrarily with traffic for other recipients, the mailbox
of a registered recipient `r` afterwards holds exactly its previous
contents followed by the messages addressed to `r`, in send order; the
receive loop (`runLoop`) then dispatches them front-first in that same
order. -/
theorem C4_fifo_per_mailbox (bus : A2AMessageBus) (r : String)
    (q0 : List A2AMessage) (ms : List A2AMessage)
    (hreg : bus.getQueue r = some q0)
    (hpt : ∀ m ∈ ms, ∃ rid, m.recipient_id = some rid ∧ rid ≠ "") :
    (bus.sendAll ms).getQueue r =
      some (q0 ++ ms.filter (fun m => m.recipient_id = some r)) := by
  induction ms generalizing bus q0 with
  | nil => simpa [A2AMessageBus.sendAll] using hreg
  | cons m rest ih =>
      obtain ⟨rid, hrec, hrid⟩ := hpt m (List.mem_cons_self m rest)
      have hstep := getQueue_send_pointToPoint bus m r rid q0 hrec hrid hreg
      by_cases hr : rid = r
      · subst hr
        rw [if_pos rfl] at hstep
        have hrest := ih (bus.send m) (q0 ++ [m]) hstep
          (fun x hx => hpt x (List.mem_cons_of_mem _ hx))
        rw [A2AMessageBus.sendAll, hrest]
        have hfc : List.filter (fun x => decide (x.recipient_id = some rid)) (m :: rest) =
            m :: List.filter (fun x => decide (x.recipient_id = some rid)) rest := by
          simp [List.filter_cons, hrec]
        rw [hfc, List.append_assoc]
        simp
      · rw [if_neg hr] at hstep
        have hrest := ih (bus.send m) q0 hstep
          (fun x hx => hpt x (List.mem_cons_of_mem _ hx))
        rw [A2AMessageBus.sendAll, hrest]
        have hfc : List.filter (fun x => decide (x.recipient_id = some r)) (m :: rest) =
            List.filter (fun x => decide (x.recipient_id = some r)) rest := by
          simp [List.filter_cons, hrec, hr]
        rw [hfc]

/-- C4 witness: two messages to `"a"` with an unrelated message to `"b"`
in between arrive in `"a"`'s mailbox in send order. -/
theorem C4_fifo_per_mailbox_witness :
    (A2AMessageBus.sendAll ⟨[("a", []), ("b", [])]⟩
        [⟨"s", some "a", [("n", "1")], none⟩,
         ⟨"s", some "b", [("n", "2")], none⟩,
         ⟨"s", some "a", [("n", "3")], none⟩]).getQueue "a" =
      some [⟨"s", some "a", [("n", "1")], none⟩,
            ⟨"s", some "a", [("n", "3")], none⟩] := by
  have h := C4_fifo_per_mailbox ⟨[("a", []), ("b", [])]⟩ "a" []
    [⟨"s", some "a", [("n", "1")], none⟩,
     ⟨"s", some "b", [("n", "2")], none⟩,
     ⟨"s", some "a", [("n", "3")], none⟩]
    (by decide)
    (by
      intro m hm
      fin_cases hm
      · exact ⟨"a", rfl, by decide⟩
      · exact ⟨"b", rfl, by decide⟩
      · exact ⟨"a", rfl, by decide⟩)
  simpa using h

/-- C5 counterexample: the claim quantifies over *every* message whose
recipient identifier has no registered mailbox.  A message whose
recipient identifier is the empty string (unregistered) fails the
Python truthiness guard `if message.recipient_id:` and is *broadcast*:
here it lands in the unrelated registered mailbox `"a"`, so send is not
a no-op and existing mailbox contents change. -/
theorem C5_counterexample :
    (A2AMessageBus.getQueue ⟨[("a", [])]⟩ "" = none) ∧
    (A2AMessageBus.send ⟨[("a", [])]⟩ ⟨"s", some "", [], none⟩).getQueue "a" =
      some [⟨"s", some "", [], none⟩] ∧
    A2AMessageBus.send ⟨[("a", [])]⟩ ⟨"s", some "", [], none⟩ ≠
      (⟨[("a", [])]⟩ : A2AMessageBus) := by
  refine ⟨by decide, by decide, by decide⟩

/-- C5 (amended): for every message whose recipient identifier is a
*non-empty* string with no currently registered mailbox, `send()` is a
silent no-op — it raises no error (the code reads the dict with `.get`,
which cannot raise), creates no mailbox, and leaves the whole mailbox
table, hence every existing mailbox's contents, unchanged.  (A
present-but-empty recipient identifier is falsy in Python and selects
the broadcast branch instead.) -/
theorem C5_send_unknown_recipient_noop (bus : A2AMessageBus)
    (msg : A2AMessage) (rid : String) (hrec : msg.recipient_id = some rid)
    (hrid : rid ≠ "") (hnone : bus.getQueue rid = none) :
    bus.send msg = bus := by
  unfold A2AMessageBus.send
  rw [hrec]
  simp [hrid, hnone]

/-- C5 witness: a send to the unregistered (non-empty) id `"ghost"`
leaves the bus exactly as it was. -/
theorem C5_send_unknown_recipient_noop_witness :
    A2AMessageBus.send ⟨[("a", [])]⟩ ⟨"s", some "ghost", [], none⟩ =
      (⟨[("a", [])]⟩ : A2AMessageBus) :=
  C5_send_unknown_recipient_noop ⟨[("a", [])]⟩ ⟨"s", some "ghost", [], none⟩
    "ghost" rfl (by decide) (by decide)

/-!  ## Orchestrator theorems  -/

/-- C1: `spawn_agent` resolves the role and validates the MCP target
*before* building the descriptor, constructing the runtime, or touching
the registry.  For an unknown role it fails with RoleNotFound and the
whole orchestrator state — in particular the registry — is exactly the
input state; for a known role with an unknown target it fails with
TargetNotFound, again leaving the state untouched; when both checks pass
it fully succeeds: the fresh id is registered and the returned
descriptor is started (RUNNING after the readiness barrier). -/
theorem C1_spawn_all_or_nothing (orch : Orchestrator) (config : AgentConfig)
    (freshId : String) (stopR : Except String Unit) :
    (config.role ∉ orch.agent_catalog →
        orch.spawn_agent config freshId stopR =
          (orch, .error (.roleNotFound config.role))) ∧
    (config.role ∈ orch.agent_catalog →
        dictGet config.mcp_server orch.mcp_registry.servers = none →
        orch.spawn_agent config freshId stopR =
          (orch, .error (.targetNotFound config.mcp_server))) ∧
    (config.role ∈ orch.agent_catalog →
        ∀ srv, dictGet config.mcp_server orch.mcp_registry.servers = some srv →
        orch.spawn_agent config freshId stopR =
          ({ orch with
              agents := Orchestrator.dictInsert orch.agents freshId
                ⟨⟨freshId, config, AgentState.RUNNING, 0, none⟩, stopR⟩ },
           .ok ⟨freshId, config, AgentState.RUNNING, 0, none⟩)) := by
  refine ⟨?_, ?_, ?_⟩
  · intro hrole
    simp [Orchestrator.spawn_agent, Orchestrator.resolve_agent_class, hrole]
  · intro hrole hmcp
    simp [Orchestrator.spawn_agent, Orchestrator.resolve_agent_class, hrole,
      MCPRegistry.get, hmcp]
  · intro hrole srv hmcp
    simp [Orchestrator.spawn_agent, Orchestrator.resolve_agent_class, hrole,
      MCPRegistry.get, hmcp]

/-- C1 witness: with catalog `["echo"]`, spawning role `"ghost"` fails
with RoleNotFound and the (empty-registry) orchestrator is unchanged. -/
theorem C1_spawn_all_or_nothing_witness :
    Orchestrator.spawn_agent ⟨["echo"], ⟨[]⟩, []⟩ ⟨"n", "ghost", "echo", []⟩
        "id1" (.ok ()) =
      ((⟨["echo"], ⟨[]⟩, []⟩ : Orchestrator),
       .error (.roleNotFound "ghost")) :=
  (C1_spawn_all_or_nothing ⟨["echo"], ⟨[]⟩, []⟩ ⟨"n", "ghost", "echo", []⟩
    "id1" (.ok ())).1 (by decide)

/-- Membership of an entry in the registry association list survives
`terminate_session` when the entry's metadata does not carry the
session. -/
theorem dictGet_filter_not_inSession
    (l : List (String × RegisteredAgent)) (s id : String) (a : RegisteredAgent)
    (hget : dictGet id l = some a) (hout : ¬ Orchestrator.inSession a s) :
    dictGet id (l.filter (fun p => ¬ Orchestrator.inSession p.2 s)) = some a := by
  induction l with
  | nil => simp [dictGet] at hget
  | cons p rest ih =>
      obtain ⟨k, v⟩ := p
      by_cases hk : k = id
      · subst hk
        rw [dictGet] at hget
        simp only [if_pos rfl] at hget
        cases hget
        have : (fun p : String × RegisteredAgent =>
            decide ¬ Orchestrator.inSession p.2 s = true) (k, a) = true := by
          simp [hout]
        rw [List.filter_cons]
        simp only [this, if_pos]
        simp [dictGet, hout]
      · rw [dictGet] at hget
        simp only [if_neg hk] at hget
        rw [List.filter_cons]
        by_cases hv : Orchestrator.inSession v s
        · simp only [hv]
          simpa using ih hget
        · simp only [hv]
          simpa [dictGet, hk] using ih hget

/-- C6: after `terminate_session s`, listing session `s` is empty; any
other session's listing is unchanged (same descriptors, same order, so
same size and identity); and every registry entry whose metadata does
not carry session `s` is still registered under the same id with the
same entry. -/
theorem C6_terminate_session_frame (orch : Orchestrator) (s s' : String) :
    ((orch.terminate_session s).1.list_agents_by_session s = []) ∧
    (s' ≠ s →
        (orch.terminate_session s).1.list_agents_by_session s' =
          orch.list_agents_by_session s') ∧
    (∀ id a, dictGet id orch.agents = some a → ¬ Orchestrator.inSession a s →
        dictGet id (orch.terminate_session s).1.agents = some a) := by
  refine ⟨?_, ?_, ?_⟩
  · simp only [Orchestrator.terminate_session, Orchestrator.list_agents_by_session]
    have : (orch.agents.filter (fun p => ¬ Orchestrator.inSession p.2 s)).filter
        (fun p => Orchestrator.inSession p.2 s) = [] := by
      induction orch.agents with
      | nil => simp
      | cons p rest ih =>
          by_cases hp : Orchestrator.inSession p.2 s
          · simp [List.filter_cons, hp]
          · simp [List.filter_cons, hp]
    simp [this]
  · intro hne
    simp only [Orchestrator.terminate_session, Orchestrator.list_agents_by_session]
    have key : orch.agents.filter
        (fun a => Orchestrator.inSession a.2 s' && !Orchestrator.inSession a.2 s) =
          orch.agents.filter (fun p => Orchestrator.inSession p.2 s') := by
      induction orch.agents with
      | nil => simp
      | cons p rest ih =>
          by_cases hp' : Orchestrator.inSession p.2 s'
          · have hp : Orchestrator.inSession p.2 s = false := by
              simp only [Orchestrator.inSession] at hp' ⊢
              rw [of_decide_eq_true hp']
              simp [hne]
            simp [List.filter_cons, hp, hp', ih]
          · simp [List.filter_cons, hp', ih]
    simp [key]
  · intro id a hget hout
    simpa [Orchestrator.terminate_session] using
      dictGet_filter_not_inSession orch.agents s id a hget hout

/-- C7: `terminate_all` atomically drains the registry and then awaits
every removed runtime's `stop()` under `return_exceptions=True`: the
registry is empty afterwards, a stop outcome is collected for *every*
drained agent (so no stop is skipped because a sibling's faulted), and
each agent's outcome — fault included — appears among the gathered
results instead of being raised. -/
theorem C7_terminate_all_drains (orch : Orchestrator) :
    ((orch.terminate_all).1.agents = []) ∧
    ((orch.terminate_all).2.length = orch.agents.length) ∧
    (∀ p ∈ orch.agents, p.2.stopResult ∈ (orch.terminate_all).2) := by
  refine ⟨rfl, by simp [Orchestrator.terminate_all], ?_⟩
  intro p hp
  simp only [Orchestrator.terminate_all, List.mem_map]
  exact ⟨p, hp, rfl⟩

/-- Concrete registry used in witnesses: two agents tagged session
`"s1"`, and one tagged `"s2"` whose `stop()` faults. -/
def orchW : Orchestrator :=
  ⟨["echo"], ⟨[("echo", ⟨"echo-mcp", "mock://echo"⟩)]⟩,
   [("a1", ⟨⟨"a1", ⟨"n1", "echo", "echo", [("session_id", "s1")]⟩,
       AgentState.RUNNING, 0, none⟩, .ok ()⟩),
    ("a2", ⟨⟨"a2", ⟨"n2", "echo", "echo", [("session_id", "s1")]⟩,
       AgentState.RUNNING, 0, none⟩, .ok ()⟩),
    ("a3", ⟨⟨"a3", ⟨"n3", "echo", "echo", [("session_id", "s2")]⟩,
       AgentState.RUNNING, 0, none⟩, .error "stop boom"⟩)]⟩

/-- C6 witness: terminating session `"s1"` on the concrete registry
empties its listing and leaves session `"s2"`'s listing identical. -/
theorem C6_terminate_session_frame_witness :
    ((Orchestrator.terminate_session orchW "s1").1.list_agents_by_session "s1" = []) ∧
    ((Orchestrator.terminate_session orchW "s1").1.list_agents_by_session "s2" =
      orchW.list_agents_by_session "s2") :=
  ⟨(C6_terminate_session_frame orchW "s1" "s2").1,
   (C6_terminate_session_frame orchW "s1" "s2").2.1 (by decide)⟩

/-- C7 witness: on the concrete registry, whose agent `"a3"` faults on
stop, `terminate_all` still empties the registry and the fault shows up
as a collected value. -/
theorem C7_terminate_all_drains_witness :
    ((Orchestrator.terminate_all orchW).1.agents = []) ∧
    (Except.error "stop boom" ∈ (Orchestrator.terminate_all orchW).2) := by
  refine ⟨(C7_terminate_all_drains orchW).1, ?_⟩
  have h := (C7_terminate_all_drains orchW).2.2
    ("a3", ⟨⟨"a3", ⟨"n3", "echo", "echo", [("session_id", "s2")]⟩,
       AgentState.RUNNING, 0, none⟩, .error "stop boom"⟩)
    (by decide)
  simpa using h

/-!  ## Runtime-loop lemmas  -/

/-- The descriptor a hook outcome carries (normal return or raise). -/
def outDesc : HookOutcome → AgentDescriptor
  | .ok d => d
  | .error (_, d) => d

/-- A hook never writes SPAWNING (true of every hook and handler in the
repository: the only states ever written by hooks are RUNNING and
STOPPED, in `echo.py`). -/
def HookNonSpawning (f : AgentDescriptor → HookOutcome) : Prop :=
  ∀ d, d.state ≠ AgentState.SPAWNING →
    (outDesc (f d)).state ≠ AgentState.SPAWNING

/-- The whole behaviour never writes SPAWNING. -/
def BehaviorNonSpawning (beh : AgentBehavior) : Prop :=
  HookNonSpawning beh.on_start ∧
  (∀ m, HookNonSpawning (beh.handle_message m)) ∧
  HookNonSpawning beh.on_idle ∧
  (∀ d, d.state ≠ AgentState.SPAWNING →
      (beh.on_stop d).state ≠ AgentState.SPAWNING)

theorem runLoop_nonSpawning (beh : AgentBehavior)
    (hm : ∀ m, HookNonSpawning (beh.handle_message m))
    (hi : HookNonSpawning beh.on_idle)
    (events : List LoopEvent) :
    ∀ d : AgentDescriptor, d.state ≠ AgentState.SPAWNING →
      (runLoop beh d events).1.state ≠ AgentState.SPAWNING ∧
      ∀ x ∈ (runLoop beh d events).2.2.2, x.state ≠ AgentState.SPAWNING := by
  induction events with
  | nil =>
      intro d hd
      refine ⟨hd, ?_⟩
      intro x hx
      simp [runLoop] at hx
  | cons ev rest ih =>
      intro d hd
      cases ev with
      | msg m =>
          cases hme : beh.handle_message m d with
          | ok dh =>
              have hdh : dh.state ≠ AgentState.SPAWNING := by
                have := hm m d hd
                rw [hme] at this
                exact this
              have hd' : ({ dh with task_count := dh.task_count + 1 } :
                  AgentDescriptor).state ≠ AgentState.SPAWNING := hdh
              have hr := ih _ hd'
              refine ⟨?_, ?_⟩
              · simpa [runLoop, handleMessageStep, hme] using hr.1
              · intro x hx
                simp only [runLoop, handleMessageStep, hme] at hx
                cases hx with
                | head => exact hd'
                | tail _ hx => exact hr.2 x hx
          | error ed =>
              obtain ⟨e, dh⟩ := ed
              have hdh : dh.state ≠ AgentState.SPAWNING := by
                have := hm m d hd
                rw [hme] at this
                exact this
              refine ⟨?_, ?_⟩
              · simpa [runLoop, handleMessageStep, hme] using hdh
              · intro x hx
                simp only [runLoop, handleMessageStep, hme,
                  List.mem_singleton] at hx
                rw [hx]
                exact hdh
      | timeout =>
          cases hie : beh.on_idle d with
          | ok d' =>
              have hd' : d'.state ≠ AgentState.SPAWNING := by
                have := hi d hd
                rw [hie] at this
                exact this
              have hr := ih _ hd'
              refine ⟨?_, ?_⟩
              · simpa [runLoop, hie] using hr.1
              · intro x hx
                simp only [runLoop, hie] at hx
                cases hx with
                | head => exact hd'
                | tail _ hx => exact hr.2 x hx
          | error ed =>
              obtain ⟨e, dh⟩ := ed
              have hdh : dh.state ≠ AgentState.SPAWNING := by
                have := hi d hd
                rw [hie] at this
                exact this
              refine ⟨?_, ?_⟩
              · simpa [runLoop, hie] using hdh
              · intro x hx
                simp only [runLoop, hie, List.mem_singleton] at hx
                rw [hx]; exact hdh

/-- C2: the readiness barrier.  `start()` blocks on
`self._started_event.wait()`; the loop task sets the event for the first
time immediately after writing RUNNING (or, on a startup fault, the
except branch sets it with FAILED already written), so the trace that
begins at that first release is never empty, opens in RUNNING or
FAILED, and — provided no hook ever writes SPAWNING back (none in the
repository does) — no point of it is SPAWNING: whenever the `start()`
caller resumes, the descriptor is past SPAWNING for good. -/
theorem C2_start_readiness_barrier (beh : AgentBehavior)
    (d0 : AgentDescriptor) (events : List LoopEvent)
    (hbeh : BehaviorNonSpawning beh) :
    ((runSafe beh d0 events).trace ≠ []) ∧
    (∀ dh, (runSafe beh d0 events).trace.head? = some dh →
        dh.state = AgentState.RUNNING ∨ dh.state = AgentState.FAILED) ∧
    (∀ d ∈ (runSafe beh d0 events).trace, d.state ≠ AgentState.SPAWNING) := by
  obtain ⟨hs, hm, hi, ho⟩ := hbeh
  have hR : ({ d0 with state := AgentState.RUNNING } :
      AgentDescriptor).state ≠ AgentState.SPAWNING := by simp
  cases hstart : beh.on_start { d0 with state := AgentState.RUNNING } with
  | error ed =>
      obtain ⟨e, dh⟩ := ed
      have hdh : dh.state ≠ AgentState.SPAWNING := by
        have h1 := hs _ hR
        rw [hstart] at h1
        exact h1
      refine ⟨by simp [runSafe, hstart], ?_, ?_⟩
      · intro x hx
        simp [runSafe, hstart] at hx
        subst hx
        left
        rfl
      · intro x hx
        simp only [runSafe, hstart] at hx
        rcases List.mem_cons.mp hx with rfl | hx
        · simp
        rcases List.mem_cons.mp hx with rfl | hx
        · exact hdh
        rcases List.mem_cons.mp hx with rfl | hx
        · simp
        rcases List.mem_cons.mp hx with rfl | hx
        · exact ho { dh with state := AgentState.FAILED, last_error := some e }
            (by simp)
        · simp at hx
  | ok d1 =>
      have hd1 : d1.state ≠ AgentState.SPAWNING := by
        have h1 := hs _ hR
        rw [hstart] at h1
        exact h1
      have hloop := runLoop_nonSpawning beh hm hi events d1 hd1
      cases hfault : (runLoop beh d1 events).2.2.1 with
      | some e =>
          refine ⟨by simp [runSafe, hstart, hfault], ?_, ?_⟩
          · intro x hx
            simp [runSafe, hstart, hfault] at hx
            subst hx
            left
            rfl
          · intro x hx
            simp only [runSafe, hstart, hfault] at hx
            rcases List.mem_cons.mp hx with rfl | hx
            · simp
            rcases List.mem_cons.mp hx with rfl | hx
            · exact hd1
            rcases List.mem_append.mp hx with hx | hx
            · exact hloop.2 x hx
            rcases List.mem_cons.mp hx with rfl | hx
            · simp
            rcases List.mem_cons.mp hx with rfl | hx
            · exact ho { (runLoop beh d1 events).1 with
                state := AgentState.FAILED, last_error := some e } (by simp)
            · simp at hx
      | none =>
          refine ⟨by simp [runSafe, hstart, hfault], ?_, ?_⟩
          · intro x hx
            simp [runSafe, hstart, hfault] at hx
            subst hx
            left
            rfl
          · intro x hx
            simp only [runSafe, hstart, hfault] at hx
            rcases List.mem_cons.mp hx with rfl | hx
            · simp
            rcases List.mem_cons.mp hx with rfl | hx
            · exact hd1
            rcases List.mem_append.mp hx with hx | hx
            · exact hloop.2 x hx
            rcases List.mem_cons.mp hx with rfl | hx
            · simp
            rcases List.mem_cons.mp hx with rfl | hx
            · exact ho { (runLoop beh d1 events).1 with
                state := AgentState.STOPPED } (by simp)
            · simp at hx

/-- The descriptor-effect of `EchoAgent` (`echo.py`): `handle_message`
builds and sends a reply without touching the descriptor; `on_idle` is
the inherited base-class no-op; `on_start`/`on_stop` write RUNNING /
STOPPED. -/
def echoBehavior : AgentBehavior :=
  ⟨echoOnStart, fun _ d => .ok d, fun d => .ok d, echoOnStop⟩

theorem echoBehavior_nonSpawning : BehaviorNonSpawning echoBehavior := by
  refine ⟨?_, ?_, ?_, ?_⟩
  · intro d hd
    simp [echoBehavior, echoOnStart, outDesc]
  · intro m d hd
    simpa [echoBehavior, outDesc] using hd
  · intro d hd
    simpa [echoBehavior, outDesc] using hd
  · intro d hd
    simp [echoBehavior, echoOnStop]

/-- Spawn-time descriptor used in the runtime witnesses. -/
def dW : AgentDescriptor :=
  ⟨"a1", ⟨"n", "echo", "echo", []⟩, AgentState.SPAWNING, 0, none⟩

/-- C2 witness: a concrete echo-agent run (one idle tick) releases the
readiness barrier. -/
theorem C2_start_readiness_barrier_witness :
    (runSafe echoBehavior dW [LoopEvent.timeout]).trace ≠ [] :=
  (C2_start_readiness_barrier echoBehavior dW [LoopEvent.timeout]
    echoBehavior_nonSpawning).1

/-- `EchoAgent.handle_message` invoked on a message whose payload does
not support the mapping protocol (reachable at runtime: `payload` is
typed `Dict[str, Any]` but never validated, and the bus forwards
whatever object the caller supplied): `message.payload.get("content", "")`
raises `AttributeError` before any descriptor mutation. -/
def echoFaultingHandler : A2AMessage → AgentDescriptor → HookOutcome :=
  fun _ d => .error ("AttributeError: 'str' object has no attribute 'get'", d)

/-- `EchoAgent` whose loop body raises on the delivered message. -/
def echoFaultBehavior : AgentBehavior :=
  ⟨echoOnStart, echoFaultingHandler, fun d => .ok d, echoOnStop⟩

/-- C3 (code bug): when an `EchoAgent`'s loop body raises, `_run_safe`
does set FAILED and record the cause, and `on_stop` does run — but
`EchoAgent.on_stop` (echo.py line 32) unconditionally writes STOPPED,
overwriting the FAILED state during the agent's own shutdown.  The
trace shows FAILED was reached; the final observable state is STOPPED
(with `last_error` still populated), contradicting the spec's
"FAILED: terminal ... remains listable with state=FAILED until
explicitly terminated". -/
theorem C3_echo_on_stop_overwrites_failed :
    ((runSafe echoFaultBehavior dW
        [LoopEvent.msg ⟨"client", some "a1", [("content", "ping")], none⟩]).desc.state =
      AgentState.STOPPED) ∧
    ((runSafe echoFaultBehavior dW
        [LoopEvent.msg ⟨"client", some "a1", [("content", "ping")], none⟩]).desc.last_error =
      some "AttributeError: 'str' object has no attribute 'get'") ∧
    (AgentState.FAILED ∈ (runSafe echoFaultBehavior dW
        [LoopEvent.msg ⟨"client", some "a1", [("content", "ping")], none⟩]).trace.map
        (fun d => d.state)) ∧
    ((runSafe echoFaultBehavior dW
        [LoopEvent.msg ⟨"client", some "a1", [("content", "ping")], none⟩]).onStopRan = true) := by
  refine ⟨by decide, by decide, by decide, by decide⟩

/-- A hook leaves `task_count` alone on both exits (every hook and
handler in the repository does: none of them touches `task_count`; the
only write is the one in `_handle_message`). -/
def HookPreservesCount (f : AgentDescriptor → HookOutcome) : Prop :=
  ∀ d, (outDesc (f d)).task_count = d.task_count

theorem runLoop_task_count (beh : AgentBehavior)
    (hm : ∀ m, HookPreservesCount (beh.handle_message m))
    (hi : HookPreservesCount beh.on_idle)
    (events : List LoopEvent) :
    ∀ d : AgentDescriptor,
      (runLoop beh d events).1.task_count =
        d.task_count + (runLoop beh d events).2.1.length := by
  induction events with
  | nil =>
      intro d
      simp [runLoop]
  | cons ev rest ih =>
      intro d
      cases ev with
      | msg m =>
          cases hme : beh.handle_message m d with
          | ok dh =>
              have hc : dh.task_count = d.task_count := by
                have h1 := hm m d
                rw [hme] at h1
                exact h1
              simp only [runLoop, handleMessageStep, hme]
              rw [ih]
              simp only [List.length_cons, hc]
              omega
          | error ed =>
              obtain ⟨e, dh⟩ := ed
              have hc : dh.task_count = d.task_count := by
                have h1 := hm m d
                rw [hme] at h1
                exact h1
              simp [runLoop, handleMessageStep, hme, hc]
      | timeout =>
          cases hie : beh.on_idle d with
          | ok d' =>
              have hc : d'.task_count = d.task_count := by
                have h1 := hi d
                rw [hie] at h1
                exact h1
              simp only [runLoop, hie]
              rw [ih, hc]
          | error ed =>
              obtain ⟨e, dh⟩ := ed
              have hc : dh.task_count = d.task_count := by
                have h1 := hi d
                rw [hie] at h1
                exact h1
              simp [runLoop, hie, hc]

/-- C9: `_handle_message` increments `task_count` exactly once per
message whose handler returns without fault, and not at all for a
message whose handler raises (the raise ends the run before the
increment).  Stated over a whole `_run_safe` execution: provided no
hook itself writes `task_count` (true of every hook in the repository),
the final count is the initial count plus exactly the number of
successfully handled messages. -/
theorem C9_task_count_increment (beh : AgentBehavior)
    (d0 : AgentDescriptor) (events : List LoopEvent)
    (hstart : HookPreservesCount beh.on_start)
    (hm : ∀ m, HookPreservesCount (beh.handle_message m))
    (hi : HookPreservesCount beh.on_idle)
    (hstop : ∀ d, (beh.on_stop d).task_count = d.task_count) :
    (runSafe beh d0 events).desc.task_count =
      d0.task_count + (runSafe beh d0 events).handledOk.length := by
  cases hst : beh.on_start { d0 with state := AgentState.RUNNING } with
  | error ed =>
      obtain ⟨e, dh⟩ := ed
      have hc : dh.task_count = d0.task_count := by
        have h1 := hstart { d0 with state := AgentState.RUNNING }
        rw [hst] at h1
        exact h1
      simp [runSafe, hst, hstop, hc]
  | ok d1 =>
      have hc1 : d1.task_count = d0.task_count := by
        have h1 := hstart { d0 with state := AgentState.RUNNING }
        rw [hst] at h1
        exact h1
      have hloop := runLoop_task_count beh hm hi events d1
      cases hfault : (runLoop beh d1 events).2.2.1 with
      | some e =>
          simp only [runSafe, hst, hfault]
          rw [hstop]
          simpa [hc1] using hloop
      | none =>
          simp only [runSafe, hst, hfault]
          rw [hstop]
          simpa [hc1] using hloop

/-- C9 witness: an echo agent that successfully handles two messages
and idles once ends with `task_count = 2`. -/
theorem C9_task_count_increment_witness :
    (runSafe echoBehavior dW
      [LoopEvent.msg ⟨"c", some "a1", [("content", "x")], none⟩,
       LoopEvent.timeout,
       LoopEvent.msg ⟨"c", some "a1", [("content", "y")], none⟩]).desc.task_count = 2 := by
  have h := C9_task_count_increment echoBehavior dW
    [LoopEvent.msg ⟨"c", some "a1", [("content", "x")], none⟩,
     LoopEvent.timeout,
     LoopEvent.msg ⟨"c", some "a1", [("content", "y")], none⟩]
    (fun d => by simp [echoBehavior, echoOnStart, outDesc])
    (fun m d => by simp [echoBehavior, outDesc])
    (fun d => by simp [echoBehavior, outDesc])
    (fun d => by simp [echoBehavior, echoOnStop])
  rw [h]
  decide

/-- C10: `stop()` on an agent never started: `self._runner is None`, so
the method returns at once — the descriptor is untouched (in
particular never set to STOPPING), no runner is joined, and the
`on_stop` hook (which lives inside the runner task) does not run. -/
theorem C10_stop_never_started_noop (rt : AgentRT) (h : rt.runner = none) :
    Agent.stop rt = (rt, false) := by
  simp [Agent.stop, h]

/-- C10 witness: stopping a freshly constructed (never-started) runtime
returns it unchanged without joining any loop. -/
theorem C10_stop_never_started_noop_witness :
    Agent.stop ⟨dW, none⟩ = (⟨dW, none⟩, false) :=
  C10_stop_never_started_noop ⟨dW, none⟩ rfl

/-!  ## LLM pool theorems  -/

theorem countP_replicate_waiting (k : Nat) :
    (List.replicate k CallerPhase.waiting).countP
      (fun c => c = CallerPhase.holding) = 0 := by
  induction k with
  | zero => simp
  | succ n ih => simp [List.replicate_succ, List.countP_cons, ih]

theorem countP_set_exchange (l : List CallerPhase) (p : CallerPhase → Bool) :
    ∀ (i : Nat) (a b : CallerPhase), l.get? i = some a →
      (l.set i b).countP p + (if p a then 1 else 0) =
        l.countP p + (if p b then 1 else 0) := by
  induction l with
  | nil =>
      intro i a b h
      simp [List.get?] at h
  | cons x xs ih =>
      intro i a b h
      cases i with
      | zero =>
          simp only [List.get?, Option.some.injEq] at h
          subst h
          simp only [List.set, List.countP_cons]
          by_cases hpx : p x <;> by_cases hpb : p b <;>
            simp [hpx, hpb]
      | succ n =>
          simp only [List.get?] at h
          have hr := ih n a b h
          simp only [List.set, List.countP_cons]
          by_cases hpx : p x <;> simp [hpx] <;> omega

theorem poolStep_preserves_sum (s t : PoolState) (h : PoolStep s t) :
    holders t + t.avail = holders s + s.avail := by
  cases h with
  | acquire i hi hav =>
      have hx := countP_set_exchange s.callers
        (fun c => c = CallerPhase.holding) i CallerPhase.waiting
        CallerPhase.holding hi
      simp only [holders]
      simp at hx
      omega
  | release i hi =>
      have hx := countP_set_exchange s.callers
        (fun c => c = CallerPhase.holding) i CallerPhase.holding
        CallerPhase.done hi
      simp only [holders]
      simp at hx
      omega

/-- C8: for a resource registered with `max_concurrent = N` and any
number `k` of caller tasks, every state reachable by interleaved
acquire/release steps keeps the semaphore accounting `holders + avail
= N`: at most `N` callers hold an acquired client at any instant.
When all `N` slots are held the counter is zero, and the `acquire`
transition requires a positive counter — an excess caller stays blocked
until some holder's `finally` releases a slot (which happens on every
exit path: success, fault, or cancellation). -/
theorem C8_pool_concurrency_cap (N k : Nat) (s : PoolState)
    (hreach : PoolReachable (poolInit N k) s) :
    (holders s + s.avail = N) ∧
    (holders s ≤ N) ∧
    (holders s = N → s.avail = 0) := by
  have hsum : holders s + s.avail = N := by
    induction hreach with
    | refl => simp [poolInit, holders, countP_replicate_waiting]
    | tail hab hbc ih =>
        rw [poolStep_preserves_sum _ _ hbc]
        exact ih
  exact ⟨hsum, by omega, by omega⟩

/-- C8 witness: with `N = 1` and two callers, the state after the first
caller acquires is reachable, and it has at most one holder (and a
drained counter, so the second caller's acquire step is disabled). -/
theorem C8_pool_concurrency_cap_witness :
    holders ⟨0, [CallerPhase.holding, CallerPhase.waiting]⟩ ≤ 1 ∧
    (⟨0, [CallerPhase.holding, CallerPhase.waiting]⟩ : PoolState).avail = 0 := by
  have hstep : PoolStep (poolInit 1 2)
      ⟨0, [CallerPhase.holding, CallerPhase.waiting]⟩ := by
    have h := PoolStep.acquire (poolInit 1 2) 0 (by decide) (by decide)
    simpa [poolInit] using h
  have h := C8_pool_concurrency_cap 1 2
    ⟨0, [CallerPhase.holding, CallerPhase.waiting]⟩
    (Relation.ReflTransGen.single hstep)
  exact ⟨h.2.1, h.2.2 (by decide)⟩
